import Mathlib

/-
Shallow embedding of the remember-me store (src/remember_me_mcp_server):
the persistent resource model (context.py), the rule-policy engine
(context.py, class Rule), the registry facade (MyContext plus the
list-resource boundary of server.py), and the backup subsystem (backup.py).

SQLite tables are modelled as Lean lists of rows; a cursor SELECT with
fetchone is List.find?, DELETE is List.filter, UPDATE is List.map, INSERT
is list append.  SQL equality `=` against a NULL parameter matches nothing,
while `IS` is null-aware equality; rule contexts are therefore Option
String compared with Option equality for `IS` and with the never-matching-
on-none semantics for `=`.  Each mutating operation returns its result
together with the table as committed by the operation.
-/

namespace RememberMe

/-- Modelled from the spec: errors.py is not under src/.  Spec section 7
names the error kinds (NotFound, NotValid, AlreadyExists,
IntegrityViolation) carried by ResourceError / BackupError messages; each
raise site in src/ is assigned the kind the spec gives it.  ValueError
stands for untyped Python failures (tuple unpacking), NotImplemented for
NotImplementedError. -/
inductive Err where
  | notFound (msg : String)
  | notValid (msg : String)
  | alreadyExists (msg : String)
  | integrityViolation (msg : String)
  | valueError (msg : String)
  | notImplemented
  deriving Repr, DecidableEq

/-- Python str.capitalize: first character upper-cased, rest lower-cased. -/
def pyCapitalize (s : String) : String :=
  match s.toList with
  | [] => ""
  | c :: rest => String.mk (c.toUpper :: rest.map Char.toLower)

/-- Row of the snippet / summary tables: columns (type, context, key,
content) where `content` is the column named after the resource
(snippet / summary) and `type` holds the mime type. -/
structure PRRow where
  type : String
  context : String
  key : String
  content : String
  deriving Repr, DecidableEq

abbrev PRTable := List PRRow

/-- WHERE clause of PersistentResource.set: key = ? AND context IS ?.
Contexts of PersistentResource are plain strings (never NULL), so IS
coincides with string equality. -/
def prMatch (context key : String) (r : PRRow) : Bool :=
  r.key == key && r.context == context

/-- WHERE clause of PersistentResource.get / remove: context = ? AND key = ?. -/
def prWhere (context key : String) (r : PRRow) : Bool :=
  r.context == context && r.key == key

/-- PersistentResource.get: SELECT content, type WHERE context = ? AND
key = ?; fetchone; raises NotFound when no row matches. -/
def prGet (rn : String) (t : PRTable) (context key : String) :
    Except Err (String × String) :=
  match t.find? (prWhere context key) with
  | some r => Except.ok (r.content, r.type)
  | none =>
      Except.error (Err.notFound
        (pyCapitalize rn ++ " (" ++ context ++ "/" ++ key ++ ") not found"))

/-- One returned dict of PersistentResource.list. -/
structure PRItem where
  key : String
  mimeType : String
  content : Option String
  deriving Repr, DecidableEq

/-- PersistentResource.list: SELECT rows WHERE context = ?; content column
included only when include_content is true. -/
def prList (t : PRTable) (context : String) (includeContent : Bool) :
    List PRItem :=
  (t.filter (fun r => r.context == context)).map
    (fun r => ⟨r.key, r.type, if includeContent then some r.content else none⟩)

/-- PersistentResource.remove: DELETE WHERE context = ? AND key = ?, commit,
then raise NotFound when the delete affected no row.  The commit precedes
the check, so the returned table is the filtered one on both branches. -/
def prRemove (rn : String) (t : PRTable) (context key : String) :
    Except Err String × PRTable :=
  let kept := t.filter (fun r => !(prWhere context key r))
  let affected := t.countP (prWhere context key)
  if 0 < affected then
    (Except.ok
      (pyCapitalize rn ++ " " ++ context ++ "/" ++ key ++ " removed successfully"),
     kept)
  else
    (Except.error (Err.notFound
      (pyCapitalize rn ++ " " ++ context ++ "/" ++ key ++" not found")),
     kept)

/-- Row effect of the UPDATE statement of PersistentResource.set on one
row: matched rows get the new type and content, others are untouched. -/
def prUpdateRow (context key resource mimeType : String) (r : PRRow) : PRRow :=
  if prMatch context key r then { r with type := mimeType, content := resource } else r

/-- PersistentResource.set: UPDATE type, content WHERE key = ? AND context
IS ?; when the update matched no row, INSERT the new row.  The defensive
rowcount check after INSERT cannot fire (a plain INSERT affects one row),
so the model has no failure branch. -/
def prSet (rn : String) (t : PRTable) (context key resource mimeType : String) :
    Except Err String × PRTable :=
  let matched := t.countP (prMatch context key)
  if matched == 0 then
    (Except.ok
      ("New " ++ rn ++ " (" ++ context ++ "/" ++ key ++ " " ++ mimeType ++ ") added"),
     t ++ [⟨mimeType, context, key, resource⟩])
  else
    (Except.ok
      ("Existing " ++ rn ++ " (" ++ context ++ "/" ++ key ++ " " ++ mimeType ++ ") updated"),
     t.map (prUpdateRow context key resource mimeType))

/-- Python set literal ALLOWED_RULE_POLICIES. -/
def ALLOWED_RULE_POLICIES : List String :=
  ["MUST", "MUST NOT", "SHOULD", "SHOULD NOT", "MAY"]

/-- Row of the rules table: columns (context, policy, rule); the context
column is nullable (Python passes None for the default namespace). -/
structure RuleRow where
  context : Option String
  policy : String
  rule : String
  deriving Repr, DecidableEq

abbrev RulesTable := List RuleRow

/-- WHERE clause rule = ? AND context IS ? of Rule.set (and the equivalent
two-branch version of Rule.remove): IS is null-aware, hence Option
equality. -/
def ruleMatch (context : Option String) (rule : String) (r : RuleRow) : Bool :=
  r.rule == rule && r.context == context

/-- SELECT policy FROM rules WHERE rule = ? AND context IS ?; fetchone. -/
def ruleFind (t : RulesTable) (context : Option String) (rule : String) :
    Option String :=
  (t.find? (ruleMatch context rule)).map RuleRow.policy

/-- Rule.get: raises NotImplementedError unconditionally. -/
def ruleGet (_t : RulesTable) (_context _key : String) :
    Except Err (String × String) :=
  Except.error Err.notImplemented

/-- Rule.list: SELECT policy, rule WHERE context = ?.  SQL `=` against a
NULL parameter matches no row, and a NULL context column never equals a
string parameter, so only rows whose context equals the given string are
returned and a none context returns nothing. -/
def ruleList (t : RulesTable) (context : Option String) :
    List (String × String) :=
  (t.filter (fun r =>
    match context with
    | some s => r.context == some s
    | none => false)).map (fun r => (r.policy, r.rule))

/-- Row effect of the UPDATE statement of Rule.set on one row: matched
rows get the new policy, others are untouched. -/
def ruleUpdateRow (context : Option String) (rule policy : String) (r : RuleRow) : RuleRow :=
  if ruleMatch context rule r then { r with policy := policy } else r

/-- Rule.set: reject a policy outside ALLOWED_RULE_POLICIES; otherwise look
up the (context, rule) row; same policy raises AlreadyExists, different
policy updates in place, no row inserts a new one. -/
def ruleSet (t : RulesTable) (context : Option String) (policy rule : String) :
    Except Err String × RulesTable :=
  if ALLOWED_RULE_POLICIES.contains policy then
    match ruleFind t context rule with
    | some existing =>
        if existing == policy then
          (Except.error (Err.alreadyExists
            "Rule already exists with the same policy and context"), t)
        else
          (Except.ok ("Policy updated from " ++ existing ++ " to " ++ policy),
           t.map (ruleUpdateRow context rule policy))
    | none =>
        (Except.ok "New rule added", t ++ [⟨context, policy, rule⟩])
  else
    (Except.error (Err.notValid
      ("Invalid policy " ++ policy ++
       ". Must be one of: [MAY, MUST, MUST NOT, SHOULD, SHOULD NOT]")), t)

/-- Rule.remove: SELECT the (context, rule) row (null-aware on context),
raise NotFound when absent; DELETE it otherwise.  The defensive zero-
rowcount raise fires before commit, so that branch returns the original
table. -/
def ruleRemove (t : RulesTable) (context : Option String) (rule : String) :
    Except Err String × RulesTable :=
  match t.find? (ruleMatch context rule) with
  | none =>
      (Except.error (Err.notFound
        ("Rule " ++ rule ++ " not found with the specified context")), t)
  | some _ =>
      let kept := t.filter (fun r => !(ruleMatch context rule r))
      if kept.length == t.length then
        (Except.error (Err.integrityViolation ("Rule " ++ rule ++ " not removed")), t)
      else
        (Except.ok ("Rule " ++ rule ++ " removed successfully"), kept)

/-- The three resource handlers that MyContext.resource_types maps names
to. -/
inductive ResKind where
  | rule
  | snippet
  | summary
  deriving Repr, DecidableEq

/-- Keys of MyContext.resource_types, in order. -/
def resourceTypeNames : List String := ["rule", "snippet", "summary"]

/-- MyContext.resource_types as an association list. -/
def resourceTypes : List (String × ResKind) :=
  [("rule", ResKind.rule), ("snippet", ResKind.snippet), ("summary", ResKind.summary)]

/-- MyContext.__getitem__: a dict lookup in the resources map; a missing
key is a Python KeyError, modelled as none. -/
def myGetItem (key : String) : Option ResKind :=
  (resourceTypes.find? (fun p => p.1 == key)).map Prod.snd

/-- The registry-backed store: one table per resource handler, all created
by MyContext.create_db. -/
structure StoreState where
  snippet : PRTable
  summary : PRTable
  rules : RulesTable
  deriving Repr, DecidableEq

/-- Fresh store right after idempotent schema creation: empty tables. -/
def initState : StoreState := ⟨[], [], []⟩

/-- Dict rendering of a PersistentResource.list item, with the resource
name as the content key when content is included. -/
def prItemToDict (rn : String) (i : PRItem) : List (String × String) :=
  match i.content with
  | some c => [("key", i.key), ("mime_type", i.mimeType), (rn, c)]
  | none => [("key", i.key), ("mime_type", i.mimeType)]

/-- Body of server.my_context_list_resource after the action split: the
membership check against MyContext.resource_types, then the __getitem__
lookup and the list call on the resolved handler. -/
def handleListResource (st : StoreState) (context r : String)
    (action : Option String) : Except Err (List (List (String × String))) :=
  if resourceTypeNames.contains r then
    match myGetItem r with
    | some ResKind.rule =>
        Except.ok ((ruleList st.rules (some context)).map
          (fun pr => [("policy", pr.1), ("rule", pr.2)]))
    | some ResKind.snippet =>
        Except.ok ((prList st.snippet context (action == some "all")).map
          (prItemToDict "snippet"))
    | some ResKind.summary =>
        Except.ok ((prList st.summary context (action == some "all")).map
          (prItemToDict "summary"))
    | none => Except.error (Err.valueError "KeyError")
  else
    Except.error (Err.notValid ("Unrecognized resource type: " ++ r))

/-- Python str.split with a one-character separator, over the character
list of the string. -/
def pySplitChars (sep : Char) : List Char → List Char → List String
  | [], acc => [String.mk acc.reverse]
  | c :: cs, acc =>
      if c == sep then String.mk acc.reverse :: pySplitChars sep cs []
      else pySplitChars sep cs (c :: acc)

/-- Python resource.split on the colon character. -/
def pySplitOn (sep : Char) (s : String) : List String :=
  pySplitChars sep s.data []

/-- server.my_context_list_resource: split an optional :action suffix off
the resource component (two or more colons make the Python tuple
unpacking raise ValueError), check the name against the registry, then
dispatch to the handler list. -/
def myContextListResource (st : StoreState) (context resource : String) :
    Except Err (List (List (String × String))) :=
  match pySplitOn ':' resource with
  | [r] => handleListResource st context r none
  | [r, a] => handleListResource st context r (some a)
  | _ => Except.error (Err.valueError "too many values to unpack")

/-- One call against the store: every public get / list / set / remove of
the snippet, summary and rule handlers. -/
inductive Op where
  | snippetGet (context key : String)
  | snippetList (context : String) (includeContent : Bool)
  | snippetSet (context key resource mimeType : String)
  | snippetRemove (context key : String)
  | summaryGet (context key : String)
  | summaryList (context : String) (includeContent : Bool)
  | summarySet (context key resource mimeType : String)
  | summaryRemove (context key : String)
  | ruleGetOp (context key : String)
  | ruleListOp (context : Option String)
  | ruleSetOp (context : Option String) (policy rule : String)
  | ruleRemoveOp (context : Option String) (rule : String)

/-- Effect of one call on the store (reads leave it unchanged; writes
commit the table the operation produced). -/
def stepOp (op : Op) (s : StoreState) : StoreState :=
  match op with
  | Op.snippetGet _ _ => s
  | Op.snippetList _ _ => s
  | Op.snippetSet c k v m => { s with snippet := (prSet "snippet" s.snippet c k v m).2 }
  | Op.snippetRemove c k => { s with snippet := (prRemove "snippet" s.snippet c k).2 }
  | Op.summaryGet _ _ => s
  | Op.summaryList _ _ => s
  | Op.summarySet c k v m => { s with summary := (prSet "summary" s.summary c k v m).2 }
  | Op.summaryRemove c k => { s with summary := (prRemove "summary" s.summary c k).2 }
  | Op.ruleGetOp _ _ => s
  | Op.ruleListOp _ => s
  | Op.ruleSetOp c p r => { s with rules := (ruleSet s.rules c p r).2 }
  | Op.ruleRemoveOp c r => { s with rules := (ruleRemove s.rules c r).2 }

/-- Store reached from a fresh schema by a sequence of calls. -/
def runOps (ops : List Op) : StoreState :=
  ops.foldl (fun s op => stepOp op s) initState

/-- Backup subsystem state: the byte content of the live store file and
the files of the backup directory (name, byte content). -/
structure BkState where
  target : List Nat
  dir : List (String × List Nat)
  deriving Repr, DecidableEq

/-- Python `name or time.time_ns()` followed by f-string rendering: a
None or empty-string name falls back to the timestamp (an int, rendered
in decimal); any other string is kept. -/
def pyNameOr (name : Option String) (now : Nat) : String :=
  match name with
  | some s => if s == "" then toString now else s
  | none => toString now

/-- Composed backup filename f-string: name, a dot, the target basename. -/
def composedName (bn : String) (name : Option String) (now : Nat) : String :=
  pyNameOr name now ++ "." ++ bn

/-- Backup.create: refuse when the composed filename already exists in the
backup directory, else copy the target bytes there and return the chosen
name.  bn is the target file basename, now the time_ns value. -/
def bCreate (bn : String) (name : Option String) (now : Nat) (s : BkState) :
    Except Err String × BkState :=
  let nm := pyNameOr name now
  let fname := nm ++ "." ++ bn
  if (s.dir.find? (fun p => p.1 == fname)).isSome then
    (Except.error (Err.alreadyExists ("Backup already exists: " ++ nm)), s)
  else
    (Except.ok nm, ⟨s.target, s.dir ++ [(fname, s.target)]⟩)

/-- Backup.list: the directory file names with their last six characters
dropped (Python name[:-6]; every entry of the model directory is a file). -/
def bList (s : BkState) : List String :=
  s.dir.map (fun p => p.1.dropRight 6)

/-- Backup.restore: refuse when the composed filename is absent, else copy
the backup bytes over the target. -/
def bRestore (bn : String) (name : String) (s : BkState) :
    Except Err Unit × BkState :=
  let fname := name ++ "." ++ bn
  match s.dir.find? (fun p => p.1 == fname) with
  | none => (Except.error (Err.notFound ("Backup doesnt exist: " ++ name)), s)
  | some p => (Except.ok (), ⟨p.2, s.dir⟩)

/-- At most one row per (context, key): any two distinct rows of the table
differ in context or key. -/
def prUnique (t : PRTable) : Prop :=
  List.Pairwise (fun a b => ¬(a.context = b.context ∧ a.key = b.key)) t

/-- At most one row per (context, rule): any two distinct rows of the
rules table differ in context or rule text. -/
def rulesUnique (t : RulesTable) : Prop :=
  List.Pairwise (fun a b => ¬(a.context = b.context ∧ a.rule = b.rule)) t

/-- Uniqueness invariant over the whole store. -/
def storeInv (s : StoreState) : Prop :=
  prUnique s.snippet ∧ prUnique s.summary ∧ rulesUnique s.rules

theorem prMatch_iff (c k : String) (r : PRRow) :
    prMatch c k r = true ↔ r.key = k ∧ r.context = c := by
  simp [prMatch]

theorem prWhere_eq_prMatch (c k : String) (r : PRRow) :
    prWhere c k r = prMatch c k r := by
  simp [prWhere, prMatch, Bool.and_comm]

theorem ruleMatch_iff (c : Option String) (ru : String) (r : RuleRow) :
    ruleMatch c ru r = true ↔ r.rule = ru ∧ r.context = c := by
  simp [ruleMatch]

theorem prUpdateRow_fields (c k v m : String) (r : PRRow) :
    (prUpdateRow c k v m r).context = r.context ∧ (prUpdateRow c k v m r).key = r.key := by
  cases h : prMatch c k r <;> simp [prUpdateRow, h]

theorem ruleUpdateRow_fields (c : Option String) (ru p : String) (r : RuleRow) :
    (ruleUpdateRow c ru p r).context = r.context ∧ (ruleUpdateRow c ru p r).rule = r.rule := by
  cases h : ruleMatch c ru r <;> simp [ruleUpdateRow, h]

theorem prMatch_prUpdateRow (c k v m : String) (r : PRRow) :
    prMatch c k (prUpdateRow c k v m r) = prMatch c k r := by
  have h := prUpdateRow_fields c k v m r
  simp [prMatch, h.1, h.2]

theorem ruleMatch_ruleUpdateRow (c : Option String) (ru p : String) (r : RuleRow) :
    ruleMatch c ru (ruleUpdateRow c ru p r) = ruleMatch c ru r := by
  have h := ruleUpdateRow_fields c ru p r
  simp [ruleMatch, h.1, h.2]

theorem countP_le_one_of_pairwise {α : Type} {R : α → α → Prop} {l : List α}
    (p : α → Bool) (hP : List.Pairwise R l)
    (h : ∀ a b, p a = true → p b = true → R a b → False) :
    l.countP p ≤ 1 := by
  induction hP with
  | nil => simp
  | cons hx _ ih =>
    rename_i x xs _
    cases hpx : p x with
    | true =>
      have hz : xs.countP p = 0 := by
        rw [List.countP_eq_zero]
        intro b hb hpb
        exact h x b hpx hpb (hx b hb)
      simp [List.countP_cons, hpx, hz]
    | false =>
      simpa [List.countP_cons, hpx] using ih

theorem prUnique_prSet (rn : String) (t : PRTable) (c k v m : String)
    (h : prUnique t) : prUnique (prSet rn t c k v m).2 := by
  cases hm : t.countP (prMatch c k) == 0 with
  | true =>
    have he : (prSet rn t c k v m).2 = t ++ [⟨m, c, k, v⟩] := by
      simp [prSet, hm]
    rw [prUnique, he, List.pairwise_append]
    refine ⟨h, by simp, ?_⟩
    intro a ha b hb
    have hball : b = ⟨m, c, k, v⟩ := by simpa using hb
    subst hball
    have hz : ∀ x ∈ t, ¬ prMatch c k x = true :=
      List.countP_eq_zero.mp (by simpa using hm)
    intro hcon
    exact (hz a ha) ((prMatch_iff c k a).mpr ⟨hcon.2, hcon.1⟩)
  | false =>
    have he : (prSet rn t c k v m).2 = t.map (prUpdateRow c k v m) := by
      simp [prSet, hm]
    rw [prUnique, he, List.pairwise_map]
    refine List.Pairwise.imp_of_mem ?_ h
    intro a b _ _ hab hcon
    have ha := prUpdateRow_fields c k v m a
    have hb := prUpdateRow_fields c k v m b
    exact hab ⟨by rw [← ha.1, ← hb.1, hcon.1], by rw [← ha.2, ← hb.2, hcon.2]⟩

theorem prUnique_prRemove (rn : String) (t : PRTable) (c k : String)
    (h : prUnique t) : prUnique (prRemove rn t c k).2 := by
  have he : (prRemove rn t c k).2 = t.filter (fun r => !(prWhere c k r)) := by
    unfold prRemove
    by_cases hm : 0 < t.countP (prWhere c k) <;> simp [hm]
  rw [prUnique, he]
  exact List.Pairwise.sublist (List.filter_sublist t) h

theorem rulesUnique_ruleSet (t : RulesTable) (c : Option String) (p ru : String)
    (h : rulesUnique t) : rulesUnique (ruleSet t c p ru).2 := by
  by_cases hall : p ∈ ALLOWED_RULE_POLICIES
  · cases hfind : ruleFind t c ru with
    | none =>
      have he : (ruleSet t c p ru).2 = t ++ [⟨c, p, ru⟩] := by
        simp [ruleSet, hall, hfind]
      rw [rulesUnique, he, List.pairwise_append]
      refine ⟨h, by simp, ?_⟩
      intro a ha b hb
      have hball : b = ⟨c, p, ru⟩ := by simpa using hb
      subst hball
      have hnone : t.find? (ruleMatch c ru) = none := by
        rw [ruleFind] at hfind
        exact Option.map_eq_none'.mp hfind
      have hz := List.find?_eq_none.mp hnone
      intro hcon
      exact (hz a ha) ((ruleMatch_iff c ru a).mpr ⟨hcon.2, hcon.1⟩)
    | some existing =>
      by_cases heq : existing = p
      · have he : (ruleSet t c p ru).2 = t := by simp [ruleSet, hall, hfind, heq]
        rw [rulesUnique, he]
        exact h
      · have he : (ruleSet t c p ru).2 = t.map (ruleUpdateRow c ru p) := by
          simp [ruleSet, hall, hfind, heq]
        rw [rulesUnique, he, List.pairwise_map]
        refine List.Pairwise.imp_of_mem ?_ h
        intro a b _ _ hab hcon
        have ha := ruleUpdateRow_fields c ru p a
        have hb := ruleUpdateRow_fields c ru p b
        exact hab ⟨by rw [← ha.1, ← hb.1, hcon.1], by rw [← ha.2, ← hb.2, hcon.2]⟩
  · have he : (ruleSet t c p ru).2 = t := by simp [ruleSet, hall]
    rw [rulesUnique, he]
    exact h

theorem rulesUnique_ruleRemove (t : RulesTable) (c : Option String) (ru : String)
    (h : rulesUnique t) : rulesUnique (ruleRemove t c ru).2 := by
  have he : (ruleRemove t c ru).2 = t ∨
      (ruleRemove t c ru).2 = t.filter (fun r => !(ruleMatch c ru r)) := by
    unfold ruleRemove
    cases hfind : t.find? (ruleMatch c ru) with
    | none => exact Or.inl rfl
    | some r0 =>
      cases hlen : (t.filter (fun r => !(ruleMatch c ru r))).length == t.length with
      | true => exact Or.inl (by simp [hlen])
      | false => exact Or.inr (by simp [hlen])
  rcases he with he | he <;> rw [rulesUnique, he]
  · exact h
  · exact List.Pairwise.sublist (List.filter_sublist t) h

theorem storeInv_stepOp (op : Op) (s : StoreState) (h : storeInv s) :
    storeInv (stepOp op s) := by
  obtain ⟨h1, h2, h3⟩ := h
  cases op <;>
    exact ⟨by first
            | exact h1
            | exact prUnique_prSet _ _ _ _ _ _ h1
            | exact prUnique_prRemove _ _ _ _ h1,
          by first
            | exact h2
            | exact prUnique_prSet _ _ _ _ _ _ h2
            | exact prUnique_prRemove _ _ _ _ h2,
          by first
            | exact h3
            | exact rulesUnique_ruleSet _ _ _ _ h3
            | exact rulesUnique_ruleRemove _ _ _ h3⟩

theorem storeInv_foldl (ops : List Op) (s : StoreState) (h : storeInv s) :
    storeInv (ops.foldl (fun s op => stepOp op s) s) := by
  induction ops generalizing s with
  | nil => exact h
  | cons op rest ih => exact ih _ (storeInv_stepOp op s h)

theorem storeInv_runOps (ops : List Op) : storeInv (runOps ops) :=
  storeInv_foldl ops initState ⟨List.Pairwise.nil, List.Pairwise.nil, List.Pairwise.nil⟩

theorem countP_prMatch_le_one (t : PRTable) (c k : String) (h : prUnique t) :
    t.countP (prMatch c k) ≤ 1 :=
  countP_le_one_of_pairwise _ h (fun a b hpa hpb hr =>
    hr ⟨((prMatch_iff c k a).mp hpa).2.trans ((prMatch_iff c k b).mp hpb).2.symm,
        ((prMatch_iff c k a).mp hpa).1.trans ((prMatch_iff c k b).mp hpb).1.symm⟩)

theorem countP_ruleMatch_le_one (t : RulesTable) (c : Option String) (ru : String)
    (h : rulesUnique t) : t.countP (ruleMatch c ru) ≤ 1 :=
  countP_le_one_of_pairwise _ h (fun a b hpa hpb hr =>
    hr ⟨((ruleMatch_iff c ru a).mp hpa).2.trans ((ruleMatch_iff c ru b).mp hpb).2.symm,
        ((ruleMatch_iff c ru a).mp hpa).1.trans ((ruleMatch_iff c ru b).mp hpb).1.symm⟩)

theorem prGet_prSet (rn : String) (t : PRTable) (c k v m : String) :
    prGet rn (prSet rn t c k v m).2 c k = Except.ok (v, m) := by
  cases hm : t.countP (prMatch c k) == 0 with
  | true =>
    have he : (prSet rn t c k v m).2 = t ++ [⟨m, c, k, v⟩] := by simp [prSet, hm]
    have hz : ∀ x ∈ t, ¬ prMatch c k x = true :=
      List.countP_eq_zero.mp (by simpa using hm)
    have hnone : t.find? (prWhere c k) = none :=
      List.find?_eq_none.mpr (fun x hx => by
        rw [prWhere_eq_prMatch]
        exact hz x hx)
    rw [prGet, he, List.find?_append, hnone]
    simp [prWhere]
  | false =>
    have he : (prSet rn t c k v m).2 = t.map (prUpdateRow c k v m) := by
      simp [prSet, hm]
    have hfn : prWhere c k ∘ prUpdateRow c k v m = prMatch c k := by
      funext r
      show prWhere c k (prUpdateRow c k v m r) = prMatch c k r
      rw [prWhere_eq_prMatch, prMatch_prUpdateRow]
    have hsome : (t.find? (prMatch c k)).isSome := by
      rw [List.find?_isSome]
      by_contra hno
      have h0 : t.countP (prMatch c k) = 0 :=
        List.countP_eq_zero.mpr (fun a ha hpa => hno ⟨a, ha, hpa⟩)
      simp [h0] at hm
    obtain ⟨r0, hr0⟩ := Option.isSome_iff_exists.mp hsome
    have hp0 : prMatch c k r0 = true := List.find?_some hr0
    rw [prGet, he, List.find?_map, hfn, hr0]
    simp [prUpdateRow, hp0]

theorem countP_prSet (rn : String) (t : PRTable) (c k v m : String)
    (h : prUnique t) :
    ((prSet rn t c k v m).2).countP (prMatch c k) = 1 := by
  cases hm : t.countP (prMatch c k) == 0 with
  | true =>
    have he : (prSet rn t c k v m).2 = t ++ [⟨m, c, k, v⟩] := by simp [prSet, hm]
    have h0 : t.countP (prMatch c k) = 0 := by simpa using hm
    rw [he, List.countP_append, h0]
    simp [prMatch]
  | false =>
    have he : (prSet rn t c k v m).2 = t.map (prUpdateRow c k v m) := by
      simp [prSet, hm]
    have hfn : prMatch c k ∘ prUpdateRow c k v m = prMatch c k :=
      funext fun r => prMatch_prUpdateRow c k v m r
    rw [he, List.countP_map, hfn]
    have hle := countP_prMatch_le_one t c k h
    have hne : ¬ t.countP (prMatch c k) = 0 := by simpa using hm
    omega

theorem countP_prList_key (t : PRTable) (c k : String) (ic : Bool) :
    (prList t c ic).countP (fun e => e.key == k) = t.countP (prMatch c k) := by
  rw [prList, List.countP_map, List.countP_filter]
  rfl

theorem ruleFind_map_update (t : RulesTable) (c : Option String) (ru p existing : String)
    (hfind : ruleFind t c ru = some existing) :
    ruleFind (t.map (ruleUpdateRow c ru p)) c ru = some p := by
  rw [ruleFind] at hfind ⊢
  obtain ⟨r0, hr0, _⟩ := Option.map_eq_some'.mp hfind
  have hp0 : ruleMatch c ru r0 = true := List.find?_some hr0
  have hfn : ruleMatch c ru ∘ ruleUpdateRow c ru p = ruleMatch c ru :=
    funext fun r => ruleMatch_ruleUpdateRow c ru p r
  rw [List.find?_map, hfn, hr0]
  simp [ruleUpdateRow, hp0]

/-- C1: Rule.set follows the specified algorithm for every context, policy
string and rule text: a policy outside the five-value enum raises NotValid
and creates no row; an existing (context, rule) row with the same policy
raises AlreadyExists and changes nothing; an existing row with a different
policy is updated in place (same row count, the row now carries the new
policy) and the update from the old to the new policy is reported; an
absent row is inserted and a new rule is reported. -/
theorem rule_set_algorithm (t : RulesTable) (c : Option String) (p ru : String) :
    (p ∉ ALLOWED_RULE_POLICIES →
      (∃ msg, (ruleSet t c p ru).1 = Except.error (Err.notValid msg)) ∧
      (ruleSet t c p ru).2 = t) ∧
    (p ∈ ALLOWED_RULE_POLICIES →
      (∀ existing, ruleFind t c ru = some existing →
        (existing = p →
          (∃ msg, (ruleSet t c p ru).1 = Except.error (Err.alreadyExists msg)) ∧
          (ruleSet t c p ru).2 = t) ∧
        (existing ≠ p →
          (ruleSet t c p ru).1 =
            Except.ok ("Policy updated from " ++ existing ++ " to " ++ p) ∧
          ruleFind (ruleSet t c p ru).2 c ru = some p ∧
          ((ruleSet t c p ru).2).length = t.length)) ∧
      (ruleFind t c ru = none →
        (ruleSet t c p ru).1 = Except.ok "New rule added" ∧
        (ruleSet t c p ru).2 = t ++ [⟨c, p, ru⟩])) := by
  constructor
  · intro hp
    exact ⟨⟨"Invalid policy " ++ p ++ ". Must be one of: [MAY, MUST, MUST NOT, SHOULD, SHOULD NOT]",
        by simp [ruleSet, hp]⟩, by simp [ruleSet, hp]⟩
  · intro hp
    constructor
    · intro existing hfind
      constructor
      · intro heq
        subst heq
        exact ⟨⟨"Rule already exists with the same policy and context",
            by simp [ruleSet, hp, hfind]⟩, by simp [ruleSet, hp, hfind]⟩
      · intro hne
        have he : (ruleSet t c p ru).2 = t.map (ruleUpdateRow c ru p) := by
          simp [ruleSet, hp, hfind, hne]
        refine ⟨by simp [ruleSet, hp, hfind, hne], ?_, ?_⟩
        · rw [he]
          exact ruleFind_map_update t c ru p existing hfind
        · rw [he]
          simp
    · intro hfind
      exact ⟨by simp [ruleSet, hp, hfind], by simp [ruleSet, hp, hfind]⟩

theorem rule_set_algorithm_witness :
    ((ruleSet [] (some "me") "MUST" "r").1 = Except.ok "New rule added" ∧
     (ruleSet [] (some "me") "MUST" "r").2 = [⟨some "me", "MUST", "r"⟩]) ∧
    ((ruleSet [⟨some "me", "MUST", "r"⟩] (some "me") "SHOULD" "r").1 =
       Except.ok ("Policy updated from " ++ "MUST" ++ " to " ++ "SHOULD") ∧
     ruleFind (ruleSet [⟨some "me", "MUST", "r"⟩] (some "me") "SHOULD" "r").2
       (some "me") "r" = some "SHOULD") :=
  ⟨((rule_set_algorithm [] (some "me") "MUST" "r").2 (by decide)).2 rfl,
   ⟨(((((rule_set_algorithm [⟨some "me", "MUST", "r"⟩] (some "me") "SHOULD" "r").2
        (by decide)).1 "MUST" rfl).2 (by decide)).1),
    (((((rule_set_algorithm [⟨some "me", "MUST", "r"⟩] (some "me") "SHOULD" "r").2
        (by decide)).1 "MUST" rfl).2 (by decide)).2.1)⟩⟩

/-- C2: upsert round trip on the snippet and summary resources (the model
is parametric in the resource name, which only enters status messages):
from any table satisfying the per-table uniqueness invariant, set then get
returns the stored pair, a second set with a new value then get returns
the new pair, and the listing of the context after both sets holds exactly
one entry for the key. -/
theorem upsert_roundtrip (rn : String) (t : PRTable) (c k v m v2 : String)
    (hU : prUnique t) :
    prGet rn (prSet rn t c k v m).2 c k = Except.ok (v, m) ∧
    prGet rn (prSet rn (prSet rn t c k v m).2 c k v2 m).2 c k = Except.ok (v2, m) ∧
    (prList (prSet rn (prSet rn t c k v m).2 c k v2 m).2 c false).countP
      (fun e => e.key == k) = 1 := by
  have h1 : prUnique (prSet rn t c k v m).2 := prUnique_prSet rn t c k v m hU
  refine ⟨prGet_prSet rn t c k v m, prGet_prSet rn _ c k v2 m, ?_⟩
  rw [countP_prList_key]
  exact countP_prSet rn (prSet rn t c k v m).2 c k v2 m h1

theorem upsert_roundtrip_witness :
    prGet "snippet" (prSet "snippet" [] "c" "k" "v" "m").2 "c" "k" = Except.ok ("v", "m") ∧
    prGet "snippet" (prSet "snippet" (prSet "snippet" [] "c" "k" "v" "m").2
      "c" "k" "v2" "m").2 "c" "k" = Except.ok ("v2", "m") ∧
    (prList (prSet "snippet" (prSet "snippet" [] "c" "k" "v" "m").2
      "c" "k" "v2" "m").2 "c" false).countP (fun e => e.key == "k") = 1 :=
  upsert_roundtrip "snippet" [] "c" "k" "v" "m" "v2" List.Pairwise.nil

/-- C3: backup round trip: when create with no caller-supplied name
succeeds and returns a name, overwriting the store content arbitrarily and
then restoring that name copies back exactly the bytes the store had at
backup-creation time. -/
theorem backup_roundtrip (bn : String) (now : Nat) (s : BkState)
    (nm : String) (newContent : List Nat)
    (h : (bCreate bn none now s).1 = Except.ok nm) :
    (bRestore bn nm ⟨newContent, (bCreate bn none now s).2.dir⟩).2.target = s.target := by
  by_cases hf : (s.dir.find? (fun q => q.1 == toString now ++ "." ++ bn)).isSome
  · exfalso
    simp [bCreate, pyNameOr, hf] at h
  · have hnm : nm = toString now := by
      simp [bCreate, pyNameOr, hf] at h
      exact h.symm
    have hdir : (bCreate bn none now s).2 =
        ⟨s.target, s.dir ++ [(toString now ++ "." ++ bn, s.target)]⟩ := by
      simp [bCreate, pyNameOr, hf]
    have hfn : s.dir.find? (fun q => q.1 == toString now ++ "." ++ bn) = none :=
      Option.not_isSome_iff_eq_none.mp hf
    rw [hdir, hnm]
    simp [bRestore, List.find?_append, hfn]

theorem backup_roundtrip_witness :
    (bCreate "my.db" none 5 ⟨[7], []⟩).1 = Except.ok "5" ∧
    (bRestore "my.db" "5" ⟨[9], (bCreate "my.db" none 5 ⟨[7], []⟩).2.dir⟩).2.target = [7] :=
  ⟨rfl, backup_roundtrip "my.db" 5 ⟨[7], []⟩ "5" [9] rfl⟩

/-- C4: after any sequence of get/list/set/remove calls starting from the
fresh store, the snippet and summary tables hold at most one row per
(context, key) pair and the rules table at most one row per (context,
rule) pair, the absent (none) rule context included. -/
theorem uniqueness_invariant (ops : List Op) (c k ru : String)
    (rc : Option String) :
    (runOps ops).snippet.countP (prMatch c k) ≤ 1 ∧
    (runOps ops).summary.countP (prMatch c k) ≤ 1 ∧
    (runOps ops).rules.countP (ruleMatch rc ru) ≤ 1 := by
  obtain ⟨h1, h2, h3⟩ := storeInv_runOps ops
  exact ⟨countP_prMatch_le_one _ c k h1, countP_prMatch_le_one _ c k h2,
         countP_ruleMatch_le_one _ rc ru h3⟩

/-- C5 failing input: Rule.set stores a rule under the absent (default)
namespace (context passed as None, stored as NULL), but Rule.list queries
with SQL equality rather than the null-aware IS used by set and remove, so
the listing of the default namespace comes back empty instead of holding
the stored {policy, rule} pair. -/
theorem rule_list_misses_default_namespace :
    (ruleSet [] none "MUST" "r").1 = Except.ok "New rule added" ∧
    (ruleSet [] none "MUST" "r").2 = [⟨none, "MUST", "r"⟩] ∧
    ruleList (ruleSet [] none "MUST" "r").2 none = [] :=
  ⟨rfl, rfl, rfl⟩

/-- C6 failing input: Backup.list drops exactly the last six characters of
each file name (the length of the deployed ".my.db" suffix) instead of the
suffix derived from the target basename; with target basename
"store.sqlite" the backup created under name "snap1" is listed as
"snap1.store.", not "snap1". -/
theorem backup_list_hardcoded_suffix :
    (bCreate "store.sqlite" (some "snap1") 0 ⟨[1], []⟩).1 = Except.ok "snap1" ∧
    bList (bCreate "store.sqlite" (some "snap1") 0 ⟨[1], []⟩).2 = ["snap1.store."] ∧
    "snap1.store." ≠ "snap1" :=
  ⟨rfl, rfl, by decide⟩

/-- C7: a resource-type name (a plain name, no :action suffix) that is not
one of rule, snippet, summary fails with NotValid at the registry
boundary: the handler returns the error for every store state, so no store
operation is reached. -/
theorem unknown_resource_notvalid (st : StoreState) (context resource : String)
    (h1 : pySplitOn ':' resource = [resource])
    (h2 : resource ∉ resourceTypeNames) :
    myContextListResource st context resource =
      Except.error (Err.notValid ("Unrecognized resource type: " ++ resource)) := by
  rw [myContextListResource, h1]
  simp [handleListResource, h2]

theorem unknown_resource_notvalid_witness :
    myContextListResource initState "me" "bogus" =
      Except.error (Err.notValid ("Unrecognized resource type: " ++ "bogus")) :=
  unknown_resource_notvalid initState "me" "bogus" rfl (by decide)

/-- C8: Backup.create never silently overwrites: when the composed backup
filename exists it raises AlreadyExists and leaves the whole backup state
(hence that file) unchanged; otherwise it appends a copy of the target and
returns the chosen name.  In particular a second create("snap1") raises
AlreadyExists and exactly one backup file with the snap1-composed name
exists afterward. -/
theorem backup_create_no_overwrite (bn : String) (name : Option String)
    (now now2 : Nat) (s : BkState) :
    ((s.dir.find? (fun q => q.1 == composedName bn name now)).isSome →
      ∃ msg, bCreate bn name now s = (Except.error (Err.alreadyExists msg), s)) ∧
    ((s.dir.find? (fun q => q.1 == composedName bn name now)).isSome = false →
      bCreate bn name now s =
        (Except.ok (pyNameOr name now),
         ⟨s.target, s.dir ++ [(composedName bn name now, s.target)]⟩)) ∧
    ((bCreate bn (some "snap1") now s).1 = Except.ok "snap1" →
      (∃ msg, (bCreate bn (some "snap1") now2 (bCreate bn (some "snap1") now s).2).1 =
          Except.error (Err.alreadyExists msg)) ∧
      ((bCreate bn (some "snap1") now2 (bCreate bn (some "snap1") now s).2).2).dir.countP
        (fun q => q.1 == composedName bn (some "snap1") now) = 1) := by
  refine ⟨?_, ?_, ?_⟩
  · intro hf
    rw [composedName] at hf
    exact ⟨"Backup already exists: " ++ pyNameOr name now, by simp [bCreate, hf]⟩
  · intro hf
    rw [composedName] at hf
    simp [bCreate, hf, composedName]
  · intro h1
    by_cases hf : (s.dir.find? (fun q => q.1 == "snap1." ++ bn)).isSome
    · exfalso
      simp [bCreate, pyNameOr, hf] at h1
    · have hfn : s.dir.find? (fun q => q.1 == "snap1." ++ bn) = none :=
        Option.not_isSome_iff_eq_none.mp hf
      have hdir : (bCreate bn (some "snap1") now s).2 =
          ⟨s.target, s.dir ++ [("snap1." ++ bn, s.target)]⟩ := by
        simp [bCreate, pyNameOr, hf]
      have hfound : (s.dir ++ [("snap1." ++ bn, s.target)]).find?
          (fun q => q.1 == "snap1." ++ bn) = some ("snap1." ++ bn, s.target) := by
        rw [List.find?_append, hfn]
        simp
      constructor
      · refine ⟨"Backup already exists: " ++ "snap1", ?_⟩
        rw [hdir]
        simp [bCreate, pyNameOr, hfound]
      · rw [hdir]
        have hstate : (bCreate bn (some "snap1") now2
            ⟨s.target, s.dir ++ [("snap1." ++ bn, s.target)]⟩).2 =
            ⟨s.target, s.dir ++ [("snap1." ++ bn, s.target)]⟩ := by
          simp [bCreate, pyNameOr, hfound]
        rw [hstate]
        have h0 : s.dir.countP (fun q => q.1 == "snap1." ++ bn) = 0 :=
          List.countP_eq_zero.mpr (List.find?_eq_none.mp hfn)
        have hcomp : composedName bn (some "snap1") now = "snap1." ++ bn := by
          simp [composedName, pyNameOr]
        rw [hcomp, List.countP_append, h0]
        simp

theorem backup_create_no_overwrite_witness :
    bCreate "my.db" (some "b1") 0 ⟨[2], []⟩ =
      (Except.ok (pyNameOr (some "b1") 0),
       ⟨[2], [(composedName "my.db" (some "b1") 0, [2])]⟩) ∧
    (∃ msg, (bCreate "my.db" (some "snap1") 1
        (bCreate "my.db" (some "snap1") 0 ⟨[2], []⟩).2).1 =
      Except.error (Err.alreadyExists msg)) ∧
    ((bCreate "my.db" (some "snap1") 1
        (bCreate "my.db" (some "snap1") 0 ⟨[2], []⟩).2).2).dir.countP
      (fun q => q.1 == composedName "my.db" (some "snap1") 0) = 1 :=
  ⟨(backup_create_no_overwrite "my.db" (some "b1") 0 0 ⟨[2], []⟩).2.1 rfl,
   ((backup_create_no_overwrite "my.db" (some "snap1") 0 1 ⟨[2], []⟩).2.2 rfl).1,
   ((backup_create_no_overwrite "my.db" (some "snap1") 0 1 ⟨[2], []⟩).2.2 rfl).2⟩

/-- C9: error atomicity of the store operations: whenever remove on a
uniform resource, rule set or rule remove returns an error, the committed
table equals the original one; get and list are pure reads (their models
take no state out), and set cannot raise in the model since the only raise
guards an insert rowcount that is always one. -/
theorem error_atomicity (rn : String) (t : PRTable) (rt : RulesTable)
    (c k p ru v m : String) (rc : Option String) :
    (∀ e, (prRemove rn t c k).1 = Except.error e → (prRemove rn t c k).2 = t) ∧
    (∀ e, (ruleSet rt rc p ru).1 = Except.error e → (ruleSet rt rc p ru).2 = rt) ∧
    (∀ e, (ruleRemove rt rc ru).1 = Except.error e → (ruleRemove rt rc ru).2 = rt) ∧
    (∃ msg, (prSet rn t c k v m).1 = Except.ok msg) := by
  refine ⟨?_, ?_, ?_, ?_⟩
  · intro e he
    by_cases hm : 0 < t.countP (prWhere c k)
    · exfalso
      simp [prRemove, hm] at he
    · have h0 : t.countP (prWhere c k) = 0 := by omega
      have hall := List.countP_eq_zero.mp h0
      simp only [prRemove, hm, if_false]
      rw [List.filter_eq_self]
      intro a ha
      simp [hall a ha]
  · intro e he
    by_cases hp : p ∈ ALLOWED_RULE_POLICIES
    · cases hfind : ruleFind rt rc ru with
      | none =>
        exfalso
        simp [ruleSet, hp, hfind] at he
      | some existing =>
        by_cases heq : existing = p
        · simp [ruleSet, hp, hfind, heq]
        · exfalso
          simp [ruleSet, hp, hfind, heq] at he
    · simp [ruleSet, hp]
  · intro e he
    cases hfind : rt.find? (ruleMatch rc ru) with
    | none => simp [ruleRemove, hfind]
    | some r0 =>
      cases hlen : (rt.filter (fun r => !(ruleMatch rc ru r))).length == rt.length with
      | true => simp [ruleRemove, hfind, hlen]
      | false =>
        exfalso
        simp [ruleRemove, hfind, hlen] at he
  · cases hm : t.countP (prMatch c k) == 0 with
    | true =>
      exact ⟨"New " ++ rn ++ " (" ++ c ++ "/" ++ k ++ " " ++ m ++ ") added",
        by simp [prSet, hm]⟩
    | false =>
      exact ⟨"Existing " ++ rn ++ " (" ++ c ++ "/" ++ k ++ " " ++ m ++ ") updated",
        by simp [prSet, hm]⟩

theorem error_atomicity_witness :
    (prRemove "snippet" [] "me" "k").2 = [] ∧
    (ruleSet [] (some "me") "MAYBE" "r").2 = [] ∧
    (ruleRemove [] (some "me") "r").2 = [] :=
  have h := error_atomicity "snippet" [] [] "me" "k" "MAYBE" "r" "v" "m" (some "me")
  ⟨h.1 (Err.notFound "Snippet me/k not found") rfl,
   h.2.1 (Err.notValid
     "Invalid policy MAYBE. Must be one of: [MAY, MUST, MUST NOT, SHOULD, SHOULD NOT]") rfl,
   h.2.2.1 (Err.notFound "Rule r not found with the specified context") rfl⟩

/-- C10: Backup.create treats the empty-string name exactly as an omitted
name: Python truthiness makes the empty string fall back to the timestamp
identifier, so the whole call coincides with the name-omitted call and the
composed filename is built from the rendered timestamp, not from the empty
string. -/
theorem create_empty_name_falls_back (bn : String) (now : Nat) (s : BkState) :
    bCreate bn (some "") now s = bCreate bn none now s ∧
    composedName bn (some "") now = toString now ++ "." ++ bn :=
  ⟨rfl, rfl⟩

end RememberMe
